import Mathlib

/-!
Verification development for the face-alignment module
(`src/mobile/apps/photos/rust/src/ml/face/align.rs`).

The Rust code is shallowly embedded over exact rational arithmetic:
`f32` values are idealized as `ℚ` (with `f32::EPSILON = 2^-23` kept as the
explicit rational constant `eps32`), machine integers (`i32`, `usize`) as
`ℤ` / `ℕ` (Rust `usize` saturating subtraction is `Nat` subtraction),
and fallible code returns `Except MlError`.  The external linear-algebra
and imaging dependencies (nalgebra's 2x2 SVD, imageproc's projection
inversion and bicubic warp) are not part of the repository; their results
enter the embedding as explicit parameters (`Svd2`, `MlOracles`), with the
predicate `isSVD` characterising a genuine singular value decomposition.
-/

/-- Two error kinds of the module (`crate::ml::error::MlError`, modelled
from the spec: `Preprocess` for a malformed source pixel buffer,
`Postprocess` for numerical failures; the defining file is outside `src/`). -/
inductive MlError where
  | Preprocess (msg : String)
  | Postprocess (msg : String)
deriving DecidableEq, Repr

/-- A 2D vector with rational coordinates (models `nalgebra::Vector2<f32>`
and `[f32; 2]` points). -/
structure Vec2 where
  x : ℚ
  y : ℚ
deriving DecidableEq, Repr

/-- A 2x2 rational matrix (models `nalgebra::Matrix2<f32>`). -/
structure Mat2 where
  a00 : ℚ
  a01 : ℚ
  a10 : ℚ
  a11 : ℚ
deriving DecidableEq, Repr

def Mat2.zero : Mat2 := ⟨0, 0, 0, 0⟩

def Mat2.id : Mat2 := ⟨1, 0, 0, 1⟩

def Mat2.add (m n : Mat2) : Mat2 :=
  ⟨m.a00 + n.a00, m.a01 + n.a01, m.a10 + n.a10, m.a11 + n.a11⟩

def Mat2.mul (m n : Mat2) : Mat2 :=
  ⟨m.a00 * n.a00 + m.a01 * n.a10, m.a00 * n.a01 + m.a01 * n.a11,
   m.a10 * n.a00 + m.a11 * n.a10, m.a10 * n.a01 + m.a11 * n.a11⟩

def Mat2.det (m : Mat2) : ℚ := m.a00 * m.a11 - m.a01 * m.a10

def Mat2.transpose (m : Mat2) : Mat2 := ⟨m.a00, m.a10, m.a01, m.a11⟩

/-- `Matrix2::new(d0, 0, 0, d1)` as used for the reflection-correction
diagonal. -/
def Mat2.diag (d0 d1 : ℚ) : Mat2 := ⟨d0, 0, 0, d1⟩

def Mat2.divQ (m : Mat2) (q : ℚ) : Mat2 :=
  ⟨m.a00 / q, m.a01 / q, m.a10 / q, m.a11 / q⟩

def Mat2.mulVec (m : Mat2) (v : Vec2) : Vec2 :=
  ⟨m.a00 * v.x + m.a01 * v.y, m.a10 * v.x + m.a11 * v.y⟩

/-- The outer product `u * v.transpose()` of two 2D vectors. -/
def Vec2.outer (u v : Vec2) : Mat2 :=
  ⟨u.x * v.x, u.x * v.y, u.y * v.x, u.y * v.y⟩

def Vec2.dot (u v : Vec2) : ℚ := u.x * v.x + u.y * v.y

/-- A 3x3 rational matrix (models `nalgebra::Matrix3<f32>` and the
`[[f32; 3]; 3]` affine matrix). Field `mRC` is row `R`, column `C`. -/
structure Mat3 where
  m00 : ℚ
  m01 : ℚ
  m02 : ℚ
  m10 : ℚ
  m11 : ℚ
  m12 : ℚ
  m20 : ℚ
  m21 : ℚ
  m22 : ℚ
deriving DecidableEq, Repr

/-- Entry access `affine_matrix[row][col]` (out-of-range reads give 0;
the source only indexes 0..2). -/
def Mat3.entry (m : Mat3) (row col : ℕ) : ℚ :=
  match row, col with
  | 0, 0 => m.m00
  | 0, 1 => m.m01
  | 0, 2 => m.m02
  | 1, 0 => m.m10
  | 1, 1 => m.m11
  | 1, 2 => m.m12
  | 2, 0 => m.m20
  | 2, 1 => m.m21
  | 2, 2 => m.m22
  | _, _ => 0

/-- Exactly five 2D points: the `[[f32; 2]; 5]` keypoint array. -/
structure Points5 where
  p0 : Vec2
  p1 : Vec2
  p2 : Vec2
  p3 : Vec2
  p4 : Vec2
deriving DecidableEq, Repr

def Points5.toList (p : Points5) : List Vec2 := [p.p0, p.p1, p.p2, p.p3, p.p4]

def Points5.map (f : Vec2 → Vec2) (p : Points5) : Points5 :=
  ⟨f p.p0, f p.p1, f p.p2, f p.p3, f p.p4⟩

/-! Module constants (`align.rs` lines 10-20). -/

def FACE_SIZE : ℕ := 112

def LAPLACIAN_HARD_THRESHOLD : ℚ := 10

def REMOVE_SIDE_COLUMNS : ℕ := 56

/-- `f32::EPSILON` as an exact rational: `2^-23`. -/
def eps32 : ℚ := 1 / 8388608

/-- The singular-value rank cutoff `1e-6` from line 125. -/
def rankEps : ℚ := 1 / 1000000

/-- `MOBILEFACENET_IDEAL_5_LANDMARKS` (lines 14-20), with the decimal
`f32` literals idealized as exact decimal fractions. -/
def MOBILEFACENET_IDEAL_5_LANDMARKS : Points5 :=
  ⟨⟨38.2946 / 112, 51.6963 / 112⟩,
   ⟨73.5318 / 112, 51.5014 / 112⟩,
   ⟨56.0252 / 112, 71.7366 / 112⟩,
   ⟨41.5493 / 112, 92.3655 / 112⟩,
   ⟨70.7299 / 112, 92.2041 / 112⟩⟩

/-- `mean_2d` (lines 187-194): componentwise sum divided by the length. -/
def mean_2d (points : List Vec2) : Vec2 :=
  let sum := points.foldl (fun s p => (⟨s.x + p.x, s.y + p.y⟩ : Vec2)) ⟨0, 0⟩
  ⟨sum.x / (points.length : ℚ), sum.y / (points.length : ℚ)⟩

/-- One iteration of the covariance/variance accumulation loop
(lines 99-107): adds `dst_d * src_d^T` to `a` and `src_d.dot(src_d)` to
`src_var_sum`. -/
def covar_step (src_mean dst_mean : Vec2) (acc : Mat2 × ℚ) (pair : Vec2 × Vec2) :
    Mat2 × ℚ :=
  let src_d : Vec2 := ⟨pair.1.x - src_mean.x, pair.1.y - src_mean.y⟩
  let dst_d : Vec2 := ⟨pair.2.x - dst_mean.x, pair.2.y - dst_mean.y⟩
  (acc.1.add (dst_d.outer src_d), acc.2 + src_d.dot src_d)

/-- The covariance matrix `a` and source variance `src_var_sum` of
`estimate_similarity_transform` (lines 93-109), both divided by
`n = src_points.len() = 5` at the end. -/
def covarAndVar (src_points : Points5) : Mat2 × ℚ :=
  let src_mean := mean_2d src_points.toList
  let dst_mean := mean_2d MOBILEFACENET_IDEAL_5_LANDMARKS.toList
  let n : ℚ := (src_points.toList.length : ℚ)
  let acc := (src_points.toList.zip MOBILEFACENET_IDEAL_5_LANDMARKS.toList).foldl
    (covar_step src_mean dst_mean) (Mat2.zero, 0)
  (acc.1.divQ n, acc.2 / n)

def covarianceOf (src_points : Points5) : Mat2 := (covarAndVar src_points).1

def src_var_of (src_points : Points5) : ℚ := (covarAndVar src_points).2

/-- The reflection vector `d` (lines 111-114): `(1, 1)`, with the second
entry set to `-1` when `det(A) < 0`. -/
def dOf (a : Mat2) : Vec2 := ⟨1, if a.det < 0 then -1 else 1⟩

/-- The result of nalgebra's `a.svd(true, true)` call, supplied to the
embedding as data: optional factors `u`, `v_t` and the two singular
values. -/
structure Svd2 where
  u : Option Mat2
  vt : Option Mat2
  s0 : ℚ
  s1 : ℚ
deriving DecidableEq, Repr

/-- Orthogonality of a 2x2 matrix (both-sided, as holds for any real
orthogonal matrix). -/
def Mat2.isOrtho (m : Mat2) : Prop :=
  m.transpose.mul m = Mat2.id ∧ m.mul m.transpose = Mat2.id

instance (m : Mat2) : Decidable m.isOrtho := by
  unfold Mat2.isOrtho; infer_instance

/-- `svd` is a genuine singular value decomposition of `a`: both factors
present and orthogonal, singular values nonnegative and in decreasing
order, and `u * diag(s0, s1) * v_t = a`. -/
def isSVD (a : Mat2) (svd : Svd2) : Prop :=
  match svd.u, svd.vt with
  | some u, some vt =>
      u.isOrtho ∧ vt.isOrtho ∧ svd.s1 ≤ svd.s0 ∧ 0 ≤ svd.s1 ∧
        (u.mul (Mat2.diag svd.s0 svd.s1)).mul vt = a
  | _, _ => False

/-- `rank` (line 125): the count of singular values exceeding `1e-6`. -/
def rankOf (s0 s1 : ℚ) : ℕ :=
  (if s0 > rankEps then 1 else 0) + (if s1 > rankEps then 1 else 0)

/-- The rotation factor `r` (lines 132-145).  In the `rank == 1` branch
with `det(U) * det(V) <= 0`, the local copy of `d` has its second entry
set to `-1.0` (lines 137-141); `d` itself is restored afterwards. -/
def rotationR (rank : ℕ) (u vt : Mat2) (d : Vec2) : Mat2 :=
  if rank = 1 then
    if u.det * vt.transpose.det > 0 then
      u.mul vt
    else
      (u.mul (Mat2.diag d.x (-1))).mul vt
  else
    (u.mul (Mat2.diag d.x d.y)).mul vt

/-- `scale` (lines 147-151): `(s0*d0 + s1*d1) / src_var_sum`, or `1.0`
when `src_var_sum <= f32::EPSILON`. -/
def estimateScale (src_points : Points5) (svd : Svd2) : ℚ :=
  let d := dOf (covarianceOf src_points)
  if src_var_of src_points ≤ eps32 then 1
  else (svd.s0 * d.x + svd.s1 * d.y) / src_var_of src_points

/-- `AlignmentResult` (modelled from the spec: a 3x3 affine matrix with
bottom row `[0,0,1]`, a center point, a scalar size and a rotation; the
defining `types.rs` is outside `src/`).  The rotation `atan2(r10, r00)`
is transcendental, so the field holds the argument pair `(r10, r00)`. -/
structure AlignmentResult where
  affine_matrix : Mat3
  center : Vec2
  size : ℚ
  rotation : ℚ × ℚ
deriving DecidableEq, Repr

/-- `estimate_similarity_transform` (lines 92-185), with the nalgebra SVD
result supplied as the `svd` argument. -/
def estimate_similarity_transform (src_points : Points5) (svd : Svd2) :
    Except MlError AlignmentResult :=
  let src_mean := mean_2d src_points.toList
  let dst_mean := mean_2d MOBILEFACENET_IDEAL_5_LANDMARKS.toList
  let a := covarianceOf src_points
  let d := dOf a
  match svd.u with
  | none => .error (.Postprocess "SVD failed to produce U")
  | some u =>
    match svd.vt with
    | none => .error (.Postprocess "SVD failed to produce V^T")
    | some vt =>
      let rank := rankOf svd.s0 svd.s1
      if rank = 0 then
        .error (.Postprocess "failed to estimate similarity transform (rank=0)")
      else
        let r := rotationR rank u vt d
        let scale := estimateScale src_points svd
        let translation : Vec2 :=
          ⟨dst_mean.x - (r.mulVec src_mean).x * scale,
           dst_mean.y - (r.mulVec src_mean).y * scale⟩
        let t : Mat3 :=
          ⟨r.a00 * scale, r.a01 * scale, translation.x,
           r.a10 * scale, r.a11 * scale, translation.y,
           0, 0, 1⟩
        let size := if |scale| < eps32 then 1 else 1 / scale
        let rotation := (r.a10, r.a00)
        let mean_translation : Vec2 :=
          ⟨(dst_mean.x - 1/2) * size, (dst_mean.y - 1/2) * size⟩
        let center : Vec2 :=
          ⟨src_mean.x - mean_translation.x, src_mean.y - mean_translation.y⟩
        .ok ⟨t, center, size, rotation⟩

/-- A packed 8-bit RGB image (`image::RgbImage`): dimensions plus a pixel
accessor `pix x y = (r, g, b)` with channel bytes in `ℕ`. -/
structure RgbImage where
  width : ℕ
  height : ℕ
  pix : ℕ → ℕ → ℕ × ℕ × ℕ

/-- `Dimensions` of a decoded image (modelled from the spec: width and
height of the source pixel buffer; the defining `types.rs` is outside
`src/`). -/
structure Dimensions where
  width : ℕ
  height : ℕ
deriving DecidableEq, Repr

/-- `DecodedImage` (modelled from the spec: dimensions and a packed 8-bit
RGB buffer of length `width*height*3`; defining file outside `src/`). -/
structure DecodedImage where
  dimensions : Dimensions
  rgb : List ℕ

/-- `FaceDetection` (modelled from the spec: a bounding box `x1,y1,x2,y2`
and five relative landmarks; defining file outside `src/`). -/
structure FaceDetection where
  box_xyxy : ℚ × ℚ × ℚ × ℚ
  keypoints : Points5
deriving DecidableEq, Repr

/-- `FaceDirection` (lines 22-27). -/
inductive FaceDirection where
  | Left
  | Right
  | Straight
deriving DecidableEq, Repr

/-- `FaceDetectionAbsolute` (lines 29-32). -/
structure FaceDetectionAbsolute where
  keypoints : Points5
deriving DecidableEq, Repr

/-- `to_face_id` (modelled from the spec: an external deterministic,
collision-free function of the file id and the bounding box; modelled as
the pair itself). -/
def to_face_id (file_id : ℤ) (box : ℚ × ℚ × ℚ × ℚ) : ℤ × (ℚ × ℚ × ℚ × ℚ) :=
  (file_id, box)

/-- `FaceResult` (modelled from the spec: detection, blur score,
alignment, an empty embedding slot and the face id; defining file outside
`src/`). -/
structure FaceResult where
  detection : FaceDetection
  blur_value : ℚ
  alignment : AlignmentResult
  embedding : List ℚ
  face_id : ℤ × (ℚ × ℚ × ℚ × ℚ)
deriving DecidableEq

/-- `rgb_image_from_decoded` (lines 68-75): `ImageBuffer::from_raw`
succeeds exactly when the buffer holds at least `width*height*3` bytes
(semantics of the external `image` crate); the resulting accessor reads
the packed buffer at `(y*width + x)*3 + channel`. -/
def rgb_image_from_decoded (decoded : DecodedImage) : Except MlError RgbImage :=
  let w := decoded.dimensions.width
  let h := decoded.dimensions.height
  if w * h * 3 ≤ decoded.rgb.length then
    .ok ⟨w, h, fun x y =>
      (decoded.rgb.getD ((y * w + x) * 3) 0,
       decoded.rgb.getD ((y * w + x) * 3 + 1) 0,
       decoded.rgb.getD ((y * w + x) * 3 + 2) 0)⟩
  else
    .error (.Preprocess "failed to build RGB source image")

/-- `to_absolute_detection` (lines 77-90): scales each relative keypoint
by the image width and height. -/
def to_absolute_detection (detection : FaceDetection) (image_width image_height : ℕ) :
    FaceDetectionAbsolute :=
  ⟨detection.keypoints.map (fun p =>
    ⟨p.x * (image_width : ℚ), p.y * (image_height : ℚ)⟩)⟩

/-- `normalize_face_rgb_for_mobilefacenet` (lines 233-244): row-major
loop over `y` then `x`, pushing the three channels of each pixel mapped
through `v / 127.5 - 1`. -/
def normalize_face_rgb_for_mobilefacenet (face_image : RgbImage) : List ℚ :=
  (List.range FACE_SIZE).foldl (fun output y =>
    (List.range FACE_SIZE).foldl (fun output x =>
      let px := face_image.pix x y
      output ++ [(px.1 : ℚ) / 127.5 - 1, (px.2.1 : ℚ) / 127.5 - 1,
                 (px.2.2 : ℚ) / 127.5 - 1]) output) []

/-- `face_direction` (lines 246-275). -/
def face_direction (detection : FaceDetectionAbsolute) : FaceDirection :=
  let left_eye := detection.keypoints.p0
  let right_eye := detection.keypoints.p1
  let nose := detection.keypoints.p2
  let left_mouth := detection.keypoints.p3
  let right_mouth := detection.keypoints.p4
  let eye_distance_x := |right_eye.x - left_eye.x|
  let eye_distance_y := |right_eye.y - left_eye.y|
  let mouth_distance_y := |right_mouth.y - left_mouth.y|
  let face_is_upright :=
    max left_eye.y right_eye.y + 0.5 * eye_distance_y < nose.y ∧
      nose.y + 0.5 * mouth_distance_y < min left_mouth.y right_mouth.y
  let nose_sticking_out_left :=
    nose.x < min left_eye.x right_eye.x ∧ nose.x < min left_mouth.x right_mouth.x
  let nose_sticking_out_right :=
    nose.x > max left_eye.x right_eye.x ∧ nose.x > max left_mouth.x right_mouth.x
  let nose_close_to_left_eye := |nose.x - left_eye.x| < 0.2 * eye_distance_x
  let nose_close_to_right_eye := |nose.x - right_eye.x| < 0.2 * eye_distance_x
  if nose_sticking_out_left ∨ (face_is_upright ∧ nose_close_to_left_eye) then
    .Left
  else if nose_sticking_out_right ∨ (face_is_upright ∧ nose_close_to_right_eye) then
    .Right
  else
    .Straight

/-- Pointwise update of a flat integer buffer: `buf[i] = v` (models a
`Vec<i32>` store; all source stores are in bounds in the regimes the
claims exercise). -/
def bufWrite (b : ℕ → ℤ) (i : ℕ) (v : ℤ) : ℕ → ℤ :=
  fun j => if j = i then v else b j

/-- Grayscale value of one pixel (line 297-299): luma weights, rounded to
the nearest integer (Rust `f32::round`, which agrees with `round` on the
nonnegative inputs occurring here), clamped to `[0, 255]`. -/
def lumaInt (px : ℕ × ℕ × ℕ) : ℤ :=
  max 0 (min 255 (round ((0.299 : ℚ) * px.1 + 0.587 * px.2.1 + 0.114 * px.2.2)))

/-- `to_grayscale_buffer` (lines 290-303): returns `(gray, rows, cols)`
with `gray[y*w + x]` the luma of pixel `(x, y)`. -/
def to_grayscale_buffer (face_image : RgbImage) : (ℕ → ℤ) × ℕ × ℕ :=
  let w := face_image.width
  let h := face_image.height
  let gray := (List.range h).foldl (fun g y =>
    (List.range w).foldl (fun g x =>
      bufWrite g (y * w + x) (lumaInt (face_image.pix x y))) g) (fun _ => 0)
  (gray, h, w)

/-- `apply_laplacian` (lines 305-324): four-neighbour sum minus four
times the center, over the interior of the padded buffer. -/
def apply_laplacian (padded : ℕ → ℤ) (padded_rows padded_cols : ℕ) :
    (ℕ → ℤ) × ℕ × ℕ :=
  let rows := padded_rows - 2
  let cols := padded_cols - 2
  let out := (List.range rows).foldl (fun o i =>
    (List.range cols).foldl (fun o j =>
      let top := padded (i * padded_cols + (j + 1))
      let left := padded ((i + 1) * padded_cols + j)
      let center := padded ((i + 1) * padded_cols + (j + 1))
      let right := padded ((i + 1) * padded_cols + (j + 2))
      let bottom := padded ((i + 2) * padded_cols + (j + 1))
      bufWrite o (i * cols + j) (top + left - 4 * center + right + bottom)) o)
    (fun _ => 0)
  (out, rows, cols)

/-- First pass of `pad_image_for_direction` (lines 343-347): copies the
cropped interior window into the 1-pixel-bordered buffer. -/
def pad_pass1 (image : ℕ → ℤ) (rows cols pcols start_col copy_cols : ℕ) : ℕ → ℤ :=
  (List.range rows).foldl (fun b i =>
    (List.range copy_cols).foldl (fun b j =>
      bufWrite b ((i + 1) * pcols + (j + 1))
        (image (i * cols + (j + start_col)))) b) (fun _ => 0)

/-- Second pass of `pad_image_for_direction` (lines 349-354): fills the
top and bottom border rows from the rows one pixel inside. -/
def pad_pass2 (rows pcols copy_cols : ℕ) (b1 : ℕ → ℤ) : ℕ → ℤ :=
  if 0 < copy_cols then
    (List.range copy_cols).foldl (fun b col =>
      let ba := bufWrite b (1 + col) (b (2 * pcols + 1 + col))
      bufWrite ba ((rows + 1) * pcols + 1 + col)
        (ba ((rows - 1) * pcols + 1 + col))) b1
  else b1

/-- Third pass of `pad_image_for_direction` (lines 356-360): fills the
left and right border columns from the columns one pixel inside. -/
def pad_pass3 (rows pcols : ℕ) (b2 : ℕ → ℤ) : ℕ → ℤ :=
  (List.range (rows + 2)).foldl (fun b row =>
    let ba := bufWrite b (row * pcols) (b (row * pcols + 2))
    bufWrite ba (row * pcols + pcols - 1) (ba (row * pcols + pcols - 3))) b2

/-- `pad_image_for_direction` (lines 326-363): crops `REMOVE_SIDE_COLUMNS`
columns according to the direction while adding a 1-pixel border
(`padded_cols = cols + 2 - REMOVE_SIDE_COLUMNS`, `copy_cols =
padded_cols - 2`), then fills the border by second-ring reflection. -/
def pad_image_for_direction (image : ℕ → ℤ) (rows cols : ℕ)
    (direction : FaceDirection) : (ℕ → ℤ) × ℕ × ℕ :=
  (pad_pass3 rows (cols + 2 - REMOVE_SIDE_COLUMNS)
    (pad_pass2 rows (cols + 2 - REMOVE_SIDE_COLUMNS)
      ((cols + 2 - REMOVE_SIDE_COLUMNS) - 2)
      (pad_pass1 image rows cols (cols + 2 - REMOVE_SIDE_COLUMNS)
        (match direction with
         | .Straight => REMOVE_SIDE_COLUMNS / 2
         | .Left => REMOVE_SIDE_COLUMNS
         | .Right => 0)
        ((cols + 2 - REMOVE_SIDE_COLUMNS) - 2))),
   rows + 2, cols + 2 - REMOVE_SIDE_COLUMNS)

/-- Finiteness test on the accumulated variance (line 283): every
rational is finite, so under the exact-arithmetic idealization of `f32`
this is constantly `true`; the fallback branch is kept verbatim. -/
def is_finite (_ : ℚ) : Bool := true

/-- `variance_2d` (lines 365-384): population variance over the
`rows*cols` buffer entries (the slice iterated by the source has exactly
`rows*cols` elements as constructed by its callers), 0 for an empty map. -/
def variance_2d (matrix : ℕ → ℤ) (rows cols : ℕ) : ℚ :=
  if rows = 0 ∨ cols = 0 then 0
  else
    let total : ℚ := ((rows * cols : ℕ) : ℚ)
    let mean := ((List.range (rows * cols)).foldl
      (fun m k => m + ((matrix k : ℤ) : ℚ)) 0) / total
    let variance := (List.range (rows * cols)).foldl
      (fun v k => v + (((matrix k : ℤ) : ℚ) - mean) * (((matrix k : ℤ) : ℚ) - mean)) 0
    variance / total

/-- `compute_blur_value` (lines 277-288). -/
def compute_blur_value (face_image : RgbImage) (direction : FaceDirection) : ℚ :=
  let g := to_grayscale_buffer face_image
  let p := pad_image_for_direction g.1 g.2.1 g.2.2 direction
  let l := apply_laplacian p.1 p.2.1 p.2.2
  let variance := variance_2d l.1 l.2.1 l.2.2
  if is_finite variance then variance else LAPLACIAN_HARD_THRESHOLD + 1

/-- Results of the external imaging and linear-algebra dependencies,
supplied to the embedding as data: `svd` stands for nalgebra's
`Matrix2::svd(true, true)`, `from_matrix` for imageproc's
`Projection::from_matrix` (None when the matrix is not invertible), and
`warp` for the bicubic `warp_into` resampling through a projection. -/
structure MlOracles where
  svd : Mat2 → Svd2
  from_matrix : Mat3 → Option Mat3
  warp : RgbImage → Mat3 → RgbImage

/-- The entrywise scaling loop of `warp_face_image` (lines 197-207),
built up by the same row/column iteration over an all-zero array. -/
def scale_transform (affine_matrix : Mat3) : ℕ → ℕ → ℚ :=
  (List.range 3).foldl (fun t row =>
    (List.range 3).foldl (fun t col =>
      let value := affine_matrix.entry row col
      fun i j =>
        if i = row ∧ j = col then
          (if |value - 1| ≤ eps32 then 1 else value * (FACE_SIZE : ℚ))
        else t i j) t) (fun _ _ => 0)

/-- The scaled transform collected back into a 3x3 matrix (the argument
array of `Projection::from_matrix`, lines 209-219). -/
def Mat3.ofFun (t : ℕ → ℕ → ℚ) : Mat3 :=
  ⟨t 0 0, t 0 1, t 0 2, t 1 0, t 1 1, t 1 2, t 2 0, t 2 1, t 2 2⟩

/-- `warp_face_image` (lines 196-231): scales the affine matrix, builds
the projection (failing with a Postprocess error when `from_matrix`
returns `None`), and resamples into a fresh `FACE_SIZE` square canvas. -/
def warp_face_image (o : MlOracles) (source : RgbImage) (affine_matrix : Mat3) :
    Except MlError RgbImage :=
  let transform := scale_transform affine_matrix
  match o.from_matrix (Mat3.ofFun transform) with
  | none => .error (.Postprocess "invalid affine matrix projection")
  | some projection =>
      .ok ⟨FACE_SIZE, FACE_SIZE, (o.warp source projection).pix⟩

/-- The body of the per-detection loop of `run_face_alignment`
(lines 43-63): absolute landmarks, similarity transform (the SVD oracle
applied to the covariance matrix stands for `a.svd(true, true)`), warp,
tensor normalization, blur score and face id. -/
def align_one (o : MlOracles) (file_id : ℤ) (decoded : DecodedImage)
    (source : RgbImage) (detection : FaceDetection) :
    Except MlError (List ℚ × FaceResult) :=
  let absolute_detection := to_absolute_detection detection
    decoded.dimensions.width decoded.dimensions.height
  match estimate_similarity_transform absolute_detection.keypoints
      (o.svd (covarianceOf absolute_detection.keypoints)) with
  | .error e => .error e
  | .ok alignment =>
    match warp_face_image o source alignment.affine_matrix with
    | .error e => .error e
    | .ok aligned =>
      let normalized := normalize_face_rgb_for_mobilefacenet aligned
      let blur_value := compute_blur_value aligned (face_direction absolute_detection)
      let face_id := to_face_id file_id detection.box_xyxy
      .ok (normalized,
        { detection := detection, blur_value := blur_value,
          alignment := alignment, embedding := [], face_id := face_id })

/-- The `for detection in detections` loop of `run_face_alignment`,
accumulating the two output vectors and aborting on the first error. -/
def align_loop (o : MlOracles) (file_id : ℤ) (decoded : DecodedImage)
    (source : RgbImage) :
    List FaceDetection → List (List ℚ) × List FaceResult →
      Except MlError (List (List ℚ) × List FaceResult)
  | [], acc => .ok acc
  | detection :: rest, acc =>
    match align_one o file_id decoded source detection with
    | .error e => .error e
    | .ok (normalized, face_result) =>
      align_loop o file_id decoded source rest
        (acc.1 ++ [normalized], acc.2 ++ [face_result])

/-- `run_face_alignment` (lines 34-66). -/
def run_face_alignment (o : MlOracles) (file_id : ℤ) (decoded : DecodedImage)
    (detections : List FaceDetection) :
    Except MlError (List (List ℚ) × List FaceResult) :=
  match rgb_image_from_decoded decoded with
  | .error e => .error e
  | .ok source => align_loop o file_id decoded source detections ([], [])

/-! Spec-side definitions: transcriptions of the claims' wording, to be
compared against the source-derived definitions above. -/

/-- Claim wording for the source variance: the mean of the squared
distances of the five source points from their centroid. -/
def spec_var_src (src_points : Points5) : ℚ :=
  let m := mean_2d src_points.toList
  ((src_points.toList.map (fun p =>
    (p.x - m.x) * (p.x - m.x) + (p.y - m.y) * (p.y - m.y))).sum) / 5

/-- Claim wording for the direction classifier, transcribed literally:
`upright` demands margins of AT LEAST half the respective span (`≥`), and
nose-near-eye means WITHIN 20% of the eye span (`≤`); the nose-out
predicates are strict, as the claim says. -/
def claimed_face_direction (detection : FaceDetectionAbsolute) : FaceDirection :=
  let left_eye := detection.keypoints.p0
  let right_eye := detection.keypoints.p1
  let nose := detection.keypoints.p2
  let left_mouth := detection.keypoints.p3
  let right_mouth := detection.keypoints.p4
  let eye_distance_x := |right_eye.x - left_eye.x|
  let eye_distance_y := |right_eye.y - left_eye.y|
  let mouth_distance_y := |right_mouth.y - left_mouth.y|
  let upright :=
    (nose.y - left_eye.y ≥ 0.5 * eye_distance_y ∧
     nose.y - right_eye.y ≥ 0.5 * eye_distance_y) ∧
    (left_mouth.y - nose.y ≥ 0.5 * mouth_distance_y ∧
     right_mouth.y - nose.y ≥ 0.5 * mouth_distance_y)
  let nose_out_left :=
    nose.x < min left_eye.x right_eye.x ∧ nose.x < min left_mouth.x right_mouth.x
  let nose_out_right :=
    nose.x > max left_eye.x right_eye.x ∧ nose.x > max left_mouth.x right_mouth.x
  let nose_near_left := |nose.x - left_eye.x| ≤ 0.2 * eye_distance_x
  let nose_near_right := |nose.x - right_eye.x| ≤ 0.2 * eye_distance_x
  if nose_out_left ∨ (upright ∧ nose_near_left) then .Left
  else if nose_out_right ∨ (upright ∧ nose_near_right) then .Right
  else .Straight

/-- The amended direction claim: identical to `claimed_face_direction`
except that the upright margins demand MORE than half the span (`>`) and
nose-near-eye means STRICTLY closer than 20% of the eye span (`<`). -/
def amended_face_direction (detection : FaceDetectionAbsolute) : FaceDirection :=
  let left_eye := detection.keypoints.p0
  let right_eye := detection.keypoints.p1
  let nose := detection.keypoints.p2
  let left_mouth := detection.keypoints.p3
  let right_mouth := detection.keypoints.p4
  let eye_distance_x := |right_eye.x - left_eye.x|
  let eye_distance_y := |right_eye.y - left_eye.y|
  let mouth_distance_y := |right_mouth.y - left_mouth.y|
  let upright :=
    (nose.y - left_eye.y > 0.5 * eye_distance_y ∧
     nose.y - right_eye.y > 0.5 * eye_distance_y) ∧
    (left_mouth.y - nose.y > 0.5 * mouth_distance_y ∧
     right_mouth.y - nose.y > 0.5 * mouth_distance_y)
  let nose_out_left :=
    nose.x < min left_eye.x right_eye.x ∧ nose.x < min left_mouth.x right_mouth.x
  let nose_out_right :=
    nose.x > max left_eye.x right_eye.x ∧ nose.x > max left_mouth.x right_mouth.x
  let nose_near_left := |nose.x - left_eye.x| < 0.2 * eye_distance_x
  let nose_near_right := |nose.x - right_eye.x| < 0.2 * eye_distance_x
  if nose_out_left ∨ (upright ∧ nose_near_left) then .Left
  else if nose_out_right ∨ (upright ∧ nose_near_right) then .Right
  else .Straight

/-- Claim wording for the crop start column of the blur scorer:
`C/2` for Straight, `C` for Left, `0` for Right. -/
def claimed_start_col (direction : FaceDirection) : ℕ :=
  match direction with
  | .Straight => REMOVE_SIDE_COLUMNS / 2
  | .Left => REMOVE_SIDE_COLUMNS
  | .Right => 0

/-- The three-float block one pixel contributes to the output tensor. -/
def pixBlock (img : RgbImage) (x y : ℕ) : List ℚ :=
  [((img.pix x y).1 : ℚ) / 127.5 - 1,
   ((img.pix x y).2.1 : ℚ) / 127.5 - 1,
   ((img.pix x y).2.2 : ℚ) / 127.5 - 1]

/-! Concrete instances used by witnesses and counterexamples. -/

/-- Landmarks on the boundary of the upright margin: both eyes level with
the nose (margin exactly half the zero eye span), mouth corners well
below. -/
def boundaryLandmarks : FaceDetectionAbsolute :=
  ⟨⟨⟨0, 0⟩, ⟨2, 0⟩, ⟨0, 0⟩, ⟨0, 10⟩, ⟨2, 10⟩⟩⟩

/-- Source landmarks whose covariance matrix is exactly
`[[0, 1], [1/2000000, 0]]` (rank 1 with a negative determinant). -/
def srcRank1 : Points5 :=
  ⟨⟨-1225462/177404938275, -113317120000/7096197531⟩,
   ⟨-413714/59134979425, 37408560000/2365399177⟩,
   ⟨2466604/177404938275, 1091440000/7096197531⟩,
   ⟨0, 0⟩, ⟨0, 0⟩⟩

/-- The exact SVD of that covariance matrix: `U = I`,
`V^T = [[0,1],[1,0]]`, singular values `(1, 1/2000000)`. -/
def svdRank1 : Svd2 := ⟨some Mat2.id, some ⟨0, 1, 1, 0⟩, 1, 1/2000000⟩

/-- Source landmarks whose covariance matrix is exactly `scaleEps • I`
and whose source variance makes the estimated scale exactly
`f32::EPSILON`. -/
def srcEps : Points5 :=
  ⟨⟨-94105092934396280832/116971330564375, -81415563966024646656/116971330564375⟩,
   ⟨13314099715440574464/16710190080625, -82457290305141866496/116971330564375⟩,
   ⟨906394926312259584/116971330564375, 163872854271166513152/116971330564375⟩,
   ⟨0, 0⟩, ⟨0, 0⟩⟩

/-- The common diagonal entry of `covarianceOf srcEps`. -/
def scaleEps : ℚ := 25782281932272893932032/511749571219140625

/-- The exact SVD of `covarianceOf srcEps`: both factors the identity. -/
def svdEps : Svd2 := ⟨some Mat2.id, some Mat2.id, scaleEps, scaleEps⟩

/-- An SVD with both singular values zero (the decomposition of the zero
covariance matrix arising from five identical landmarks). -/
def svdZero : Svd2 := ⟨some Mat2.id, some Mat2.id, 0, 0⟩

/-- A nondegenerate SVD value used to witness the size computation. -/
def svdOne : Svd2 := ⟨some Mat2.id, some Mat2.id, 1, 1⟩

/-- Five identical landmark points. -/
def srcSame : Points5 := ⟨⟨3, 4⟩, ⟨3, 4⟩, ⟨3, 4⟩, ⟨3, 4⟩, ⟨3, 4⟩⟩

/-- Five coincident landmarks at the origin. -/
def srcZero : Points5 := ⟨⟨0, 0⟩, ⟨0, 0⟩, ⟨0, 0⟩, ⟨0, 0⟩, ⟨0, 0⟩⟩

/-- A constant test image: every pixel is `(255, 0, 128)`. -/
def imgConst : RgbImage := ⟨FACE_SIZE, FACE_SIZE, fun _ _ => (255, 0, 128)⟩

/-- A value within `f32::EPSILON` of 1 but different from 1
(`1 - 2^-24`). -/
def nearOne : ℚ := 1 - 1/16777216

/-- A 3x3 matrix whose top-left entry is `nearOne` and whose bottom-right
entry is 1. -/
def matNearOne : Mat3 := ⟨nearOne, 0, 0, 0, 0, 0, 0, 0, 1⟩

/-- Oracles for the witness run: the SVD oracle answers `svdZero`
everywhere, the projection is never invertible, warping is the identity. -/
def oraclesW : MlOracles := ⟨fun _ => svdZero, fun _ => none, fun img _ => img⟩

/-- A 1x1 decoded image with a single black pixel. -/
def decodedW : DecodedImage := ⟨⟨1, 1⟩, [0, 0, 0]⟩

/-- The RGB image built from `decodedW`. -/
def sourceW : RgbImage :=
  ⟨1, 1, fun x y =>
    (decodedW.rgb.getD ((y * 1 + x) * 3) 0,
     decodedW.rgb.getD ((y * 1 + x) * 3 + 1) 0,
     decodedW.rgb.getD ((y * 1 + x) * 3 + 2) 0)⟩

/-- A detection whose five keypoints coincide (degenerate landmarks). -/
def detW : FaceDetection :=
  ⟨(0, 0, 0, 0), ⟨⟨1/2, 1/2⟩, ⟨1/2, 1/2⟩, ⟨1/2, 1/2⟩, ⟨1/2, 1/2⟩, ⟨1/2, 1/2⟩⟩⟩

/-- The rank-0 Postprocess error of the transform estimator. -/
def errRank0 : MlError :=
  .Postprocess "failed to estimate similarity transform (rank=0)"

/-! Decidability infrastructure for concrete evaluation.  Batteries marks
the `Rat` arithmetic irreducible for the elaborator; the kernel reduces it
regardless, and we restore reducibility locally so `decide` can evaluate
the embedded functions on concrete inputs. -/

attribute [local semireducible] Rat.add Rat.mul Rat.inv Rat.sub Rat.ofScientific

deriving instance DecidableEq for Except

instance (a : Mat2) (svd : Svd2) : Decidable (isSVD a svd) := by
  unfold isSVD
  cases hu : svd.u <;> cases hvt : svd.vt <;> simp <;> infer_instance

/-! Shared algebraic helper lemmas. -/

theorem Mat2.mul_assoc (a b c : Mat2) : (a.mul b).mul c = a.mul (b.mul c) := by
  cases a; cases b; cases c
  simp only [Mat2.mul, Mat2.mk.injEq]
  exact ⟨by ring, by ring, by ring, by ring⟩

theorem Mat2.id_mul (a : Mat2) : Mat2.id.mul a = a := by
  cases a; simp [Mat2.mul, Mat2.id]

theorem Mat2.mul_zero (a : Mat2) : a.mul Mat2.zero = Mat2.zero := by
  cases a; simp [Mat2.mul, Mat2.zero]

theorem covar_all_eq (p : Vec2) : covarianceOf ⟨p, p, p, p, p⟩ = Mat2.zero := by
  obtain ⟨x, y⟩ := p
  simp only [covarianceOf, covarAndVar, covar_step, mean_2d, Points5.toList,
    Vec2.outer, Vec2.dot, Mat2.add, Mat2.divQ, Mat2.zero,
    MOBILEFACENET_IDEAL_5_LANDMARKS, List.zip, List.zipWith, List.foldl,
    List.length_cons, List.length_nil, Mat2.mk.injEq]
  refine ⟨by push_cast; ring, by push_cast; ring, by push_cast; ring, by push_cast; ring⟩

theorem src_var_eq_spec (src : Points5) : src_var_of src = spec_var_src src := by
  obtain ⟨⟨x0, y0⟩, ⟨x1, y1⟩, ⟨x2, y2⟩, ⟨x3, y3⟩, ⟨x4, y4⟩⟩ := src
  simp only [src_var_of, covarAndVar, covar_step, mean_2d, spec_var_src,
    Points5.toList, Vec2.dot, MOBILEFACENET_IDEAL_5_LANDMARKS, List.zip,
    List.zipWith, List.foldl, List.map, List.sum_cons, List.sum_nil,
    List.length_cons, List.length_nil]
  push_cast
  ring

/-- C2: for every five source points and every SVD result, the estimated
scale is `(s0*d0 + s1*d1) / var_src` — with `var_src` the mean of the
squared distances of the source points from their centroid — except that
it is exactly 1.0 whenever `var_src` is at or below machine epsilon. -/
theorem estimate_scale_matches_spec (src : Points5) (svd : Svd2) :
    estimateScale src svd =
      if spec_var_src src ≤ eps32 then 1
      else (svd.s0 * (dOf (covarianceOf src)).x + svd.s1 * (dOf (covarianceOf src)).y) /
        spec_var_src src := by
  rw [estimateScale, src_var_eq_spec]

/-- C3 counterexample: a reachable rank-1 input (genuine SVD of the
covariance of concrete landmarks) with `det(A) < 0`, hence `d = (1,-1)`,
and `det(U)*det(V) <= 0`: the computed rotation is NOT `U*diag(d')*V^T`
for `d'` equal to `d` with its second entry sign-flipped (the code sets
the entry to `-1`, which here leaves `d` unchanged instead of flipping). -/
theorem rank1_reflection_flip_counterexample :
    rankOf svdRank1.s0 svdRank1.s1 = 1 ∧
    ¬ Mat2.id.det * (⟨0, 1, 1, 0⟩ : Mat2).transpose.det > 0 ∧
    isSVD (covarianceOf srcRank1) svdRank1 ∧
    (covarianceOf srcRank1).det < 0 ∧
    rotationR (rankOf svdRank1.s0 svdRank1.s1) Mat2.id ⟨0, 1, 1, 0⟩
        (dOf (covarianceOf srcRank1)) ≠
      (Mat2.id.mul (Mat2.diag (dOf (covarianceOf srcRank1)).x
        (-(dOf (covarianceOf srcRank1)).y))).mul ⟨0, 1, 1, 0⟩ := by
  refine ⟨by decide, by decide, by decide, by decide, by decide⟩

/-- C3 amended: in the rank-1 case, if `det(U)*det(V) > 0` then
`R = U*V^T`; otherwise `R = U*diag(d')*V^T` where `d'` is `d` with its
second entry SET TO `-1` (not sign-flipped), and the scale computation
uses the original `d`. -/
theorem rank1_reflection_amended (src : Points5) (svd : Svd2) (u vt : Mat2)
    (hrank : rankOf svd.s0 svd.s1 = 1) :
    (u.det * vt.transpose.det > 0 →
      rotationR (rankOf svd.s0 svd.s1) u vt (dOf (covarianceOf src)) = u.mul vt) ∧
    (¬ u.det * vt.transpose.det > 0 →
      rotationR (rankOf svd.s0 svd.s1) u vt (dOf (covarianceOf src)) =
        (u.mul (Mat2.diag (dOf (covarianceOf src)).x (-1))).mul vt) ∧
    estimateScale src svd =
      (if src_var_of src ≤ eps32 then 1
       else (svd.s0 * (dOf (covarianceOf src)).x + svd.s1 * (dOf (covarianceOf src)).y) /
         src_var_of src) := by
  refine ⟨fun h => ?_, fun h => ?_, rfl⟩ <;> rw [hrank] <;> simp [rotationR, h]

/-- C3 amended witness: the amended rank-1 statement applied to the
concrete rank-1 configuration. -/
theorem rank1_reflection_amended_witness :
    rankOf svdRank1.s0 svdRank1.s1 = 1 ∧
    ((Mat2.id.det * (⟨0, 1, 1, 0⟩ : Mat2).transpose.det > 0 →
      rotationR (rankOf svdRank1.s0 svdRank1.s1) Mat2.id ⟨0, 1, 1, 0⟩
        (dOf (covarianceOf srcRank1)) = Mat2.id.mul ⟨0, 1, 1, 0⟩) ∧
    (¬ Mat2.id.det * (⟨0, 1, 1, 0⟩ : Mat2).transpose.det > 0 →
      rotationR (rankOf svdRank1.s0 svdRank1.s1) Mat2.id ⟨0, 1, 1, 0⟩
        (dOf (covarianceOf srcRank1)) =
        (Mat2.id.mul (Mat2.diag (dOf (covarianceOf srcRank1)).x (-1))).mul
          ⟨0, 1, 1, 0⟩) ∧
    estimateScale srcRank1 svdRank1 =
      (if src_var_of srcRank1 ≤ eps32 then 1
       else (svdRank1.s0 * (dOf (covarianceOf srcRank1)).x +
         svdRank1.s1 * (dOf (covarianceOf srcRank1)).y) / src_var_of srcRank1)) :=
  ⟨by decide, rank1_reflection_amended srcRank1 svdRank1 Mat2.id ⟨0, 1, 1, 0⟩ (by decide)⟩

/-- C4: when the five landmarks are numerically coincident the covariance
matrix is zero, any genuine SVD of it has both singular values zero, and
the estimator returns the rank-0 Postprocess error rather than an
AlignmentResult. -/
theorem degenerate_landmarks_rank0_error (src : Points5) (svd : Svd2)
    (h1 : src.p1 = src.p0) (h2 : src.p2 = src.p0) (h3 : src.p3 = src.p0)
    (h4 : src.p4 = src.p0) (hsvd : isSVD (covarianceOf src) svd) :
    estimate_similarity_transform src svd = .error errRank0 := by
  have hsrc : src = ⟨src.p0, src.p0, src.p0, src.p0, src.p0⟩ := by
    obtain ⟨a, b, c, d, e⟩ := src
    simp only at h1 h2 h3 h4 ⊢
    rw [h1, h2, h3, h4]
  rw [hsrc] at hsvd ⊢
  rw [covar_all_eq] at hsvd
  cases hu : svd.u with
  | none => simp [isSVD, hu] at hsvd
  | some u =>
    cases hvt : svd.vt with
    | none => simp [isSVD, hu, hvt] at hsvd
    | some vt =>
      simp only [isSVD, hu, hvt] at hsvd
      obtain ⟨⟨huo1, _⟩, ⟨_, hvo2⟩, hord, hnn, hprod⟩ := hsvd
      have hDvt : (Mat2.diag svd.s0 svd.s1).mul vt = Mat2.zero := by
        have h := congrArg (fun m => u.transpose.mul m) hprod
        simp only at h
        rw [← Mat2.mul_assoc, ← Mat2.mul_assoc, huo1, Mat2.id_mul, Mat2.mul_zero] at h
        exact h
      have hentries : svd.s0 * vt.a00 = 0 ∧ svd.s0 * vt.a01 = 0 := by
        have h00 := congrArg Mat2.a00 hDvt
        have h01 := congrArg Mat2.a01 hDvt
        simp only [Mat2.mul, Mat2.diag, Mat2.zero] at h00 h01
        constructor <;> linarith
      have hs0 : svd.s0 = 0 := by
        by_contra hc
        have hv1 : vt.a00 = 0 := by
          rcases mul_eq_zero.mp hentries.1 with h | h
          · exact absurd h hc
          · exact h
        have hv2 : vt.a01 = 0 := by
          rcases mul_eq_zero.mp hentries.2 with h | h
          · exact absurd h hc
          · exact h
        have hrow := congrArg Mat2.a00 hvo2
        simp only [Mat2.mul, Mat2.transpose, Mat2.id, hv1, hv2] at hrow
        norm_num at hrow
      have hs1 : svd.s1 = 0 := le_antisymm (hs0 ▸ hord) hnn
      have hrank : rankOf svd.s0 svd.s1 = 0 := by
        rw [hs0, hs1]
        norm_num [rankOf, rankEps]
      simp [estimate_similarity_transform, hu, hvt, hrank, errRank0]

/-- C4 witness: five copies of the point `(3,4)` with the exact SVD of
the zero covariance matrix yield the rank-0 error. -/
theorem degenerate_landmarks_rank0_error_witness :
    srcSame.p1 = srcSame.p0 ∧ srcSame.p2 = srcSame.p0 ∧
    srcSame.p3 = srcSame.p0 ∧ srcSame.p4 = srcSame.p0 ∧
    isSVD (covarianceOf srcSame) svdZero ∧
    estimate_similarity_transform srcSame svdZero = .error errRank0 :=
  ⟨rfl, rfl, rfl, rfl, by decide,
    degenerate_landmarks_rank0_error srcSame svdZero rfl rfl rfl rfl (by decide)⟩

/-- C9 counterexample: a reachable configuration (genuine SVD of the
covariance of concrete landmarks) whose estimated scale is exactly
`f32::EPSILON`: the claim says the size field should then be exactly 1.0,
but the code's strict `<` comparison computes `1/scale = 2^23` instead. -/
theorem size_epsilon_boundary_counterexample :
    isSVD (covarianceOf srcEps) svdEps ∧
    |estimateScale srcEps svdEps| ≤ eps32 ∧
    (estimate_similarity_transform srcEps svdEps).map AlignmentResult.size =
      Except.ok 8388608 ∧
    (8388608 : ℚ) ≠ 1 := by
  refine ⟨by decide, by decide, by decide, by decide⟩

/-- C9 amended: the size field equals `1/scale`, except that it is
exactly 1.0 whenever `|scale|` is STRICTLY below machine epsilon. -/
theorem estimate_size_amended (src : Points5) (svd : Svd2) (u vt : Mat2)
    (hu : svd.u = some u) (hvt : svd.vt = some vt)
    (hrank : rankOf svd.s0 svd.s1 ≠ 0) :
    (estimate_similarity_transform src svd).map AlignmentResult.size =
      Except.ok (if |estimateScale src svd| < eps32 then 1
                 else 1 / estimateScale src svd) := by
  simp [estimate_similarity_transform, hu, hvt, hrank, Except.map]

/-- C9 amended witness: a nondegenerate run whose scale is 1, so the size
field is `1/1 = 1`. -/
theorem estimate_size_amended_witness :
    svdOne.u = some Mat2.id ∧ svdOne.vt = some Mat2.id ∧
    rankOf svdOne.s0 svdOne.s1 ≠ 0 ∧
    (estimate_similarity_transform srcZero svdOne).map AlignmentResult.size =
      Except.ok (if |estimateScale srcZero svdOne| < eps32 then 1
                 else 1 / estimateScale srcZero svdOne) :=
  ⟨rfl, rfl, by decide,
    estimate_size_amended srcZero svdOne Mat2.id Mat2.id rfl rfl (by decide)⟩

/-- C1: if the pixel buffer constructs successfully, every detection
before `det` processes successfully, and processing `det` fails with
error `e`, then `run_face_alignment` returns exactly `.error e`: no
tensors and no FaceResult records are produced for any detection of the
call, including the ones processed successfully before the failure. -/
theorem run_face_alignment_aborts_on_failure (o : MlOracles) (file_id : ℤ)
    (decoded : DecodedImage) (source : RgbImage) (pre post : List FaceDetection)
    (det : FaceDetection) (e : MlError)
    (hdec : rgb_image_from_decoded decoded = .ok source)
    (hpre : ∀ p ∈ pre, ∃ v, align_one o file_id decoded source p = .ok v)
    (hfail : align_one o file_id decoded source det = .error e) :
    run_face_alignment o file_id decoded (pre ++ det :: post) = .error e := by
  have hloop : ∀ l : List FaceDetection,
      (∀ p ∈ l, ∃ v, align_one o file_id decoded source p = .ok v) →
      ∀ acc, align_loop o file_id decoded source (l ++ det :: post) acc = .error e := by
    intro l
    induction l with
    | nil =>
      intro _ acc
      simp only [List.nil_append, align_loop, hfail]
    | cons p ps ih =>
      intro hl acc
      obtain ⟨v, hv⟩ := hl p (List.mem_cons_self p ps)
      obtain ⟨v1, v2⟩ := v
      simp only [List.cons_append, align_loop, hv]
      exact ih (fun q hq => hl q (List.mem_cons_of_mem p hq)) _
  simp only [run_face_alignment, hdec]
  exact hloop pre hpre ([], [])

/-- C1 witness: a 1x1 image whose single detection has five coincident
keypoints; the transform estimation fails with the rank-0 error and the
whole call returns that error. -/
theorem run_face_alignment_aborts_on_failure_witness :
    rgb_image_from_decoded decodedW = .ok sourceW ∧
    (∀ p ∈ ([] : List FaceDetection), ∃ v,
      align_one oraclesW 7 decodedW sourceW p = .ok v) ∧
    align_one oraclesW 7 decodedW sourceW detW = .error errRank0 ∧
    run_face_alignment oraclesW 7 decodedW ([] ++ detW :: []) = .error errRank0 :=
  ⟨rfl, by simp, by decide,
    run_face_alignment_aborts_on_failure oraclesW 7 decodedW sourceW [] [] detW
      errRank0 rfl (by simp) (by decide)⟩

/-- C6 counterexample: at landmarks where the eyes are exactly level with
the nose (margin exactly half the zero eye span), the claim's
at-least-half reading makes the face upright and near the left eye, so it
predicts `Left`, but the code's strict comparison yields `Straight`. -/
theorem face_direction_claim_counterexample :
    face_direction boundaryLandmarks = FaceDirection.Straight ∧
    claimed_face_direction boundaryLandmarks = FaceDirection.Left := by
  constructor <;> decide

/-- C6 amended: the classifier returns Left if nose-out-left OR (upright
AND nose-near-left-eye), else Right if nose-out-right OR (upright AND
nose-near-right-eye), else Straight — where the upright margins demand
STRICTLY MORE than half the respective span and nose-near-an-eye means
STRICTLY closer than 20% of the eye span. -/
theorem face_direction_matches_amended_spec (d : FaceDetectionAbsolute) :
    face_direction d = amended_face_direction d := by
  obtain ⟨⟨el, er, ns, ml, mr⟩⟩ := d
  have e1 : (max el.y er.y + 0.5 * |er.y - el.y| < ns.y ∧
      ns.y + 0.5 * |mr.y - ml.y| < min ml.y mr.y) ↔
      ((ns.y - el.y > 0.5 * |er.y - el.y| ∧ ns.y - er.y > 0.5 * |er.y - el.y|) ∧
       (ml.y - ns.y > 0.5 * |mr.y - ml.y| ∧ mr.y - ns.y > 0.5 * |mr.y - ml.y|)) := by
    constructor
    · rintro ⟨ha, hb⟩
      have l1 : el.y ≤ max el.y er.y := le_max_left _ _
      have l2 : er.y ≤ max el.y er.y := le_max_right _ _
      have l3 : min ml.y mr.y ≤ ml.y := min_le_left _ _
      have l4 : min ml.y mr.y ≤ mr.y := min_le_right _ _
      exact ⟨⟨by linarith, by linarith⟩, by linarith, by linarith⟩
    · rintro ⟨⟨ha, hb⟩, hc, hd⟩
      refine ⟨?_, lt_min (by linarith) (by linarith)⟩
      have hmax : max el.y er.y < ns.y - 0.5 * |er.y - el.y| :=
        max_lt (by linarith) (by linarith)
      linarith
  simp only [face_direction, amended_face_direction, e1]

/-- C8 counterexample: the entry `1 - 2^-24` lies within `f32::EPSILON`
of 1, and the scaling loop replaces it by exactly 1.0 rather than leaving
it unchanged as the claim states. -/
theorem scale_transform_unchanged_counterexample :
    |nearOne - 1| ≤ eps32 ∧ scale_transform matNearOne 0 0 ≠ nearOne := by
  constructor <;> decide

/-- C8 amended: before inversion every entry of the affine matrix is
multiplied by `FACE_SIZE = 112`, except that any entry within floating
epsilon of 1.0 is SET TO exactly 1.0; in particular the homogeneous
bottom-right entry 1 stays exactly 1. -/
theorem scale_transform_amended (m : Mat3) (row col : ℕ)
    (hr : row < 3) (hc : col < 3) :
    scale_transform m row col =
      (if |m.entry row col - 1| ≤ eps32 then 1
       else m.entry row col * (FACE_SIZE : ℚ)) ∧
    (m.m22 = 1 → scale_transform m 2 2 = 1) := by
  have h3 : List.range 3 = [0, 1, 2] := rfl
  constructor
  · interval_cases row <;> interval_cases col <;>
      simp [scale_transform, Mat3.entry, h3]
  · intro h22
    simp [scale_transform, Mat3.entry, h3, h22, eps32]

/-- C8 amended witness: the amended scaling statement at the concrete
near-one matrix and entry (0,0). -/
theorem scale_transform_amended_witness :
    (0 : ℕ) < 3 ∧
    (scale_transform matNearOne 0 0 =
        (if |matNearOne.entry 0 0 - 1| ≤ eps32 then 1
         else matNearOne.entry 0 0 * (FACE_SIZE : ℚ)) ∧
      (matNearOne.m22 = 1 → scale_transform matNearOne 2 2 = 1)) :=
  ⟨by norm_num, scale_transform_amended matNearOne 0 0 (by norm_num) (by norm_num)⟩

theorem foldl_add_sq_nonneg (f : ℕ → ℚ) (l : List ℕ) :
    ∀ init : ℚ, 0 ≤ init → 0 ≤ l.foldl (fun v k => v + f k * f k) init := by
  induction l with
  | nil => intro init h; simpa using h
  | cons a t ih =>
    intro init h
    rw [List.foldl_cons]
    exact ih _ (add_nonneg h (mul_self_nonneg (f a)))

theorem variance_2d_nonneg (m : ℕ → ℤ) (rows cols : ℕ) :
    0 ≤ variance_2d m rows cols := by
  simp only [variance_2d]
  split_ifs with h
  · exact le_refl 0
  · exact div_nonneg (foldl_add_sq_nonneg _ _ 0 (le_refl 0)) (by positivity)

/-- C10: for every image and direction the blur score is nonnegative (and
finite, which in the exact-arithmetic embedding is automatic): the
population variance is a quotient of a sum of squares by a positive
count, the empty response map gives 0, and the non-finite fallback
`LAPLACIAN_HARD_THRESHOLD + 1 = 11` is also nonnegative. -/
theorem compute_blur_value_nonneg_spec :
    (∀ (img : RgbImage) (dir : FaceDirection), 0 ≤ compute_blur_value img dir) ∧
    (∀ (m : ℕ → ℤ) (rows cols : ℕ), 0 ≤ variance_2d m rows cols) ∧
    (∀ (m : ℕ → ℤ) (cols : ℕ), variance_2d m 0 cols = 0) ∧
    (0 : ℚ) ≤ LAPLACIAN_HARD_THRESHOLD + 1 := by
  refine ⟨?_, variance_2d_nonneg, ?_, by norm_num [LAPLACIAN_HARD_THRESHOLD]⟩
  · intro img dir
    simp only [compute_blur_value, is_finite, if_true]
    exact variance_2d_nonneg _ _ _
  · intro m cols
    simp [variance_2d]

theorem foldl_append_blocks {α β : Type} (g : β → List α) (l : List β) :
    ∀ init : List α,
      l.foldl (fun acc b => acc ++ g b) init = init ++ (l.map g).flatten := by
  induction l with
  | nil => intro init; simp
  | cons a t ih =>
    intro init
    rw [List.foldl_cons, ih]
    simp [List.append_assoc]

theorem normalize_eq_flatten (img : RgbImage) :
    normalize_face_rgb_for_mobilefacenet img =
      ((List.range FACE_SIZE).map (fun y =>
        ((List.range FACE_SIZE).map (fun x => pixBlock img x y)).flatten)).flatten := by
  unfold normalize_face_rgb_for_mobilefacenet
  have hstep : ∀ (output : List ℚ), ∀ y ∈ List.range FACE_SIZE,
      (List.range FACE_SIZE).foldl (fun output x =>
        let px := img.pix x y
        output ++ [(px.1 : ℚ) / 127.5 - 1, (px.2.1 : ℚ) / 127.5 - 1,
                   (px.2.2 : ℚ) / 127.5 - 1]) output =
      output ++ ((List.range FACE_SIZE).map (fun x => pixBlock img x y)).flatten := by
    intro output y _
    exact foldl_append_blocks (fun x => pixBlock img x y) _ output
  rw [List.foldl_ext _ _ [] hstep, foldl_append_blocks]
  simp

theorem flatten_uniform_length {α : Type} (g : ℕ → List α) (k : ℕ) :
    ∀ n : ℕ, (∀ m, m < n → (g m).length = k) →
      (((List.range n).map g).flatten).length = k * n := by
  intro n
  induction n with
  | zero => intro _; simp
  | succ t ih =>
    intro h
    rw [List.range_succ, List.map_append, List.flatten_append, List.length_append,
      ih (fun m hm => h m (Nat.lt_succ_of_lt hm))]
    simp [h t (Nat.lt_succ_self t)]
    ring

theorem flatten_uniform_get {α : Type} (g : ℕ → List α) (k : ℕ) :
    ∀ n i j : ℕ, (∀ m, m < n → (g m).length = k) → i < n → j < k →
      (((List.range n).map g).flatten)[k * i + j]? = (g i)[j]? := by
  intro n
  induction n with
  | zero => intro i j _ hi _; exact absurd hi (Nat.not_lt_zero i)
  | succ t ih =>
    intro i j h hi hj
    rw [List.range_succ, List.map_append, List.flatten_append]
    by_cases hit : i < t
    · rw [List.getElem?_append_left]
      · exact ih i j (fun m hm => h m (Nat.lt_succ_of_lt hm)) hit hj
      · rw [flatten_uniform_length g k t (fun m hm => h m (Nat.lt_succ_of_lt hm))]
        calc k * i + j < k * i + k := Nat.add_lt_add_left hj (k * i)
          _ = k * (i + 1) := by ring
          _ ≤ k * t := Nat.mul_le_mul_left k hit
    · have hit' : i = t := by omega
      subst hit'
      have hlen : (((List.range i).map g).flatten).length ≤ k * i + j := by
        rw [flatten_uniform_length g k i (fun m hm => h m (Nat.lt_succ_of_lt hm))]
        exact Nat.le_add_right _ _
      rw [List.getElem?_append_right hlen,
        flatten_uniform_length g k i (fun m hm => h m (Nat.lt_succ_of_lt hm)),
        Nat.add_sub_cancel_left]
      simp

/-- C5: the tensor normalizer emits a flat sequence of length exactly
`FACE_SIZE^2 * 3`, channel-interleaved in row-major pixel order, with
each value `v/127.5 - 1`; all values lie in `[-1, 1]` when the channel
bytes are at most 255, a byte of 255 maps to 1.0 and a byte of 0 maps to
-1.0. -/
theorem normalize_face_tensor_layout (img : RgbImage)
    (hb : ∀ x y, (img.pix x y).1 ≤ 255 ∧ (img.pix x y).2.1 ≤ 255 ∧
      (img.pix x y).2.2 ≤ 255) :
    (normalize_face_rgb_for_mobilefacenet img).length = FACE_SIZE * FACE_SIZE * 3 ∧
    (∀ y x, y < FACE_SIZE → x < FACE_SIZE →
      ((normalize_face_rgb_for_mobilefacenet img)[3 * (y * FACE_SIZE + x)]? =
          some (((img.pix x y).1 : ℚ) / 127.5 - 1) ∧
        (normalize_face_rgb_for_mobilefacenet img)[3 * (y * FACE_SIZE + x) + 1]? =
          some (((img.pix x y).2.1 : ℚ) / 127.5 - 1) ∧
        (normalize_face_rgb_for_mobilefacenet img)[3 * (y * FACE_SIZE + x) + 2]? =
          some (((img.pix x y).2.2 : ℚ) / 127.5 - 1))) ∧
    (∀ q ∈ normalize_face_rgb_for_mobilefacenet img, -1 ≤ q ∧ q ≤ 1) ∧
    (255 : ℚ) / 127.5 - 1 = 1 ∧ (0 : ℚ) / 127.5 - 1 = -1 := by
  have hrowlen : ∀ y, y < FACE_SIZE →
      (((List.range FACE_SIZE).map (fun x => pixBlock img x y)).flatten).length =
        3 * FACE_SIZE := by
    intro y _
    exact flatten_uniform_length _ 3 FACE_SIZE (fun m _ => rfl)
  have hbound : ∀ v : ℕ, v ≤ 255 → -1 ≤ (v : ℚ) / 127.5 - 1 ∧ (v : ℚ) / 127.5 - 1 ≤ 1 := by
    intro v hv
    have h1 : (0 : ℚ) ≤ (v : ℚ) := Nat.cast_nonneg v
    have h2 : (v : ℚ) ≤ 255 := by exact_mod_cast hv
    constructor
    · have h3 : (0 : ℚ) ≤ (v : ℚ) / 127.5 := by positivity
      linarith
    · have h3 : (v : ℚ) / 127.5 ≤ 2 := by
        rw [div_le_iff₀ (by norm_num : (0 : ℚ) < 127.5)]
        linarith
      linarith
  refine ⟨?_, ?_, ?_, by norm_num, by norm_num⟩
  · rw [normalize_eq_flatten, flatten_uniform_length _ (3 * FACE_SIZE) FACE_SIZE hrowlen]
    ring
  · intro y x hy hx
    refine ⟨?_, ?_, ?_⟩
    · rw [normalize_eq_flatten,
        show 3 * (y * FACE_SIZE + x) = 3 * FACE_SIZE * y + (3 * x + 0) by ring,
        flatten_uniform_get _ (3 * FACE_SIZE) FACE_SIZE y (3 * x + 0) hrowlen hy
          (by omega),
        flatten_uniform_get (fun x => pixBlock img x y) 3 FACE_SIZE x 0
          (fun m _ => rfl) hx (by omega)]
      rfl
    · rw [normalize_eq_flatten,
        show 3 * (y * FACE_SIZE + x) + 1 = 3 * FACE_SIZE * y + (3 * x + 1) by ring,
        flatten_uniform_get _ (3 * FACE_SIZE) FACE_SIZE y (3 * x + 1) hrowlen hy
          (by omega),
        flatten_uniform_get (fun x => pixBlock img x y) 3 FACE_SIZE x 1
          (fun m _ => rfl) hx (by omega)]
      rfl
    · rw [normalize_eq_flatten,
        show 3 * (y * FACE_SIZE + x) + 2 = 3 * FACE_SIZE * y + (3 * x + 2) by ring,
        flatten_uniform_get _ (3 * FACE_SIZE) FACE_SIZE y (3 * x + 2) hrowlen hy
          (by omega),
        flatten_uniform_get (fun x => pixBlock img x y) 3 FACE_SIZE x 2
          (fun m _ => rfl) hx (by omega)]
      rfl
  · intro q hq
    rw [normalize_eq_flatten] at hq
    simp only [List.mem_flatten, List.mem_map, List.mem_range] at hq
    obtain ⟨row, ⟨y, hy, rfl⟩, hqrow⟩ := hq
    simp only [List.mem_flatten, List.mem_map, List.mem_range] at hqrow
    obtain ⟨blk, ⟨x, hx, rfl⟩, hqblk⟩ := hqrow
    simp only [pixBlock, List.mem_cons, List.not_mem_nil, or_false] at hqblk
    rcases hqblk with rfl | rfl | rfl
    · exact hbound _ (hb x y).1
    · exact hbound _ (hb x y).2.1
    · exact hbound _ (hb x y).2.2

/-- C5 witness: the layout statement at a constant image whose pixels are
`(255, 0, 128)`. -/
theorem normalize_face_tensor_layout_witness :
    (∀ x y, (imgConst.pix x y).1 ≤ 255 ∧ (imgConst.pix x y).2.1 ≤ 255 ∧
      (imgConst.pix x y).2.2 ≤ 255) ∧
    ((normalize_face_rgb_for_mobilefacenet imgConst).length =
        FACE_SIZE * FACE_SIZE * 3 ∧
      (∀ y x, y < FACE_SIZE → x < FACE_SIZE →
        ((normalize_face_rgb_for_mobilefacenet imgConst)[3 * (y * FACE_SIZE + x)]? =
            some (((imgConst.pix x y).1 : ℚ) / 127.5 - 1) ∧
          (normalize_face_rgb_for_mobilefacenet imgConst)[3 * (y * FACE_SIZE + x) + 1]? =
            some (((imgConst.pix x y).2.1 : ℚ) / 127.5 - 1) ∧
          (normalize_face_rgb_for_mobilefacenet imgConst)[3 * (y * FACE_SIZE + x) + 2]? =
            some (((imgConst.pix x y).2.2 : ℚ) / 127.5 - 1))) ∧
      (∀ q ∈ normalize_face_rgb_for_mobilefacenet imgConst, -1 ≤ q ∧ q ≤ 1) ∧
      (255 : ℚ) / 127.5 - 1 = 1 ∧ (0 : ℚ) / 127.5 - 1 = -1) :=
  ⟨fun x y => by refine ⟨?_, ?_, ?_⟩ <;> norm_num [imgConst],
    normalize_face_tensor_layout imgConst
      (fun x y => by refine ⟨?_, ?_, ?_⟩ <;> norm_num [imgConst])⟩

theorem bufWrite_ne (b : ℕ → ℤ) (i : ℕ) (v : ℤ) (j : ℕ) (h : j ≠ i) :
    bufWrite b i v j = b j := by
  simp [bufWrite, h]

theorem bufWrite_self (b : ℕ → ℤ) (i : ℕ) (v : ℤ) : bufWrite b i v i = v := by
  simp [bufWrite]

theorem foldl_buf_untouched {β : Type} (step : (ℕ → ℤ) → β → ℕ → ℤ) (k : ℕ) :
    ∀ (l : List β) (b : ℕ → ℤ),
      (∀ (bc : ℕ → ℤ), ∀ x ∈ l, step bc x k = bc k) → (l.foldl step b) k = b k := by
  intro l
  induction l with
  | nil => intro b _; rfl
  | cons a t ih =>
    intro b h
    rw [List.foldl_cons, ih _ (fun bc x hx => h bc x (List.mem_cons_of_mem a hx))]
    exact h b a (List.mem_cons_self a t)

theorem row_col_eq {p a b c d : ℕ} (hb : b < p) (hd : d < p)
    (h : a * p + b = c * p + d) : a = c ∧ b = d := by
  have hp : 0 < p := lt_of_le_of_lt (Nat.zero_le b) hb
  have ha : (a * p + b) / p = a := by
    rw [Nat.add_comm, Nat.add_mul_div_right _ _ hp, Nat.div_eq_of_lt hb, Nat.zero_add]
  have hc : (c * p + d) / p = c := by
    rw [Nat.add_comm, Nat.add_mul_div_right _ _ hp, Nat.div_eq_of_lt hd, Nat.zero_add]
  have hac : a = c := by rw [← ha, ← hc, h]
  subst hac
  exact ⟨rfl, Nat.add_left_cancel h⟩

theorem pad_pass1_value (image : ℕ → ℤ) (rows cols pcols start copyc : ℕ)
    (hcopy : copyc + 2 ≤ pcols) (i j : ℕ) (hi : i < rows) (hj : j < copyc) :
    pad_pass1 image rows cols pcols start copyc ((i + 1) * pcols + (j + 1)) =
      image (i * cols + (j + start)) := by
  unfold pad_pass1
  have hcolj : j + 1 < pcols := by omega
  have hinner : ∀ b : ℕ → ℤ,
      ((List.range copyc).foldl (fun b j' =>
        bufWrite b ((i + 1) * pcols + (j' + 1)) (image (i * cols + (j' + start)))) b)
        ((i + 1) * pcols + (j + 1)) = image (i * cols + (j + start)) := by
    intro b
    have hsplit : copyc = (j + 1) + (copyc - (j + 1)) := by omega
    rw [hsplit, List.range_add, List.foldl_append]
    have huntouched := foldl_buf_untouched
      (fun b j' => bufWrite b ((i + 1) * pcols + (j' + 1))
        (image (i * cols + (j' + start))))
      ((i + 1) * pcols + (j + 1))
      ((List.range (copyc - (j + 1))).map (fun x => j + 1 + x))
      ((List.range (j + 1)).foldl (fun b j' =>
        bufWrite b ((i + 1) * pcols + (j' + 1))
          (image (i * cols + (j' + start)))) b)
      (by
        intro bc x hx
        simp only [List.mem_map, List.mem_range] at hx
        obtain ⟨m, hm, rfl⟩ := hx
        refine bufWrite_ne _ _ _ _ (fun heq => ?_)
        have h2 := (row_col_eq hcolj (by omega) heq).2
        omega)
    rw [huntouched, List.range_succ, List.foldl_append, List.foldl_cons,
      List.foldl_nil]
    exact bufWrite_self _ _ _
  have hsplitr : rows = (i + 1) + (rows - (i + 1)) := by omega
  rw [hsplitr, List.range_add, List.foldl_append]
  have houter := foldl_buf_untouched
    (fun b i' => (List.range copyc).foldl (fun b j' =>
      bufWrite b ((i' + 1) * pcols + (j' + 1))
        (image (i' * cols + (j' + start)))) b)
    ((i + 1) * pcols + (j + 1))
    ((List.range (rows - (i + 1))).map (fun x => i + 1 + x))
    ((List.range (i + 1)).foldl (fun b i' => (List.range copyc).foldl (fun b j' =>
      bufWrite b ((i' + 1) * pcols + (j' + 1))
        (image (i' * cols + (j' + start)))) b) (fun _ => 0))
    (by
      intro bc x hx
      simp only [List.mem_map, List.mem_range] at hx
      obtain ⟨m, hm, rfl⟩ := hx
      apply foldl_buf_untouched
      intro bd j' hj'
      simp only [List.mem_range] at hj'
      refine bufWrite_ne _ _ _ _ (fun heq => ?_)
      have h1 := (row_col_eq hcolj (by omega : j' + 1 < pcols) heq).1
      omega)
  rw [houter, List.range_succ, List.foldl_append, List.foldl_cons, List.foldl_nil]
  exact hinner _

theorem pad_pass2_keeps (rows pcols copyc : ℕ) (b : ℕ → ℤ) (i j : ℕ)
    (hi : i < rows) (hj1 : j + 1 < pcols) (hcopy : copyc + 2 ≤ pcols) :
    pad_pass2 rows pcols copyc b ((i + 1) * pcols + (j + 1)) =
      b ((i + 1) * pcols + (j + 1)) := by
  unfold pad_pass2
  split_ifs with h
  · apply foldl_buf_untouched
    intro bc col hcol
    simp only [List.mem_range] at hcol
    have hP : pcols ≤ (i + 1) * pcols := by
      calc pcols = 1 * pcols := (Nat.one_mul pcols).symm
        _ ≤ (i + 1) * pcols := Nat.mul_le_mul_right pcols (by omega)
    show bufWrite (bufWrite bc (1 + col) (bc (2 * pcols + 1 + col)))
        ((rows + 1) * pcols + 1 + col)
        ((bufWrite bc (1 + col) (bc (2 * pcols + 1 + col)))
          ((rows - 1) * pcols + 1 + col))
        ((i + 1) * pcols + (j + 1)) = bc ((i + 1) * pcols + (j + 1))
    rw [bufWrite_ne, bufWrite_ne]
    · refine fun heq => ?_
      have hlt : 1 + col < pcols := by omega
      have : 1 + col < (i + 1) * pcols + (j + 1) :=
        lt_of_lt_of_le hlt (le_trans hP (Nat.le_add_right _ _))
      omega
    · refine fun heq => ?_
      have heq2 : (i + 1) * pcols + (j + 1) = (rows + 1) * pcols + (1 + col) :=
        heq.trans (Nat.add_assoc _ 1 col)
      have h1 := (row_col_eq hj1 (by omega : 1 + col < pcols) heq2).1
      omega
  · rfl

theorem pad_pass3_keeps (rows pcols : ℕ) (b : ℕ → ℤ) (i j : ℕ)
    (hj1 : j + 1 < pcols - 1) :
    pad_pass3 rows pcols b ((i + 1) * pcols + (j + 1)) =
      b ((i + 1) * pcols + (j + 1)) := by
  unfold pad_pass3
  apply foldl_buf_untouched
  intro bc row hrow
  show bufWrite (bufWrite bc (row * pcols) (bc (row * pcols + 2)))
      (row * pcols + pcols - 1)
      ((bufWrite bc (row * pcols) (bc (row * pcols + 2))) (row * pcols + pcols - 3))
      ((i + 1) * pcols + (j + 1)) = bc ((i + 1) * pcols + (j + 1))
  have hp1 : 1 ≤ pcols := by omega
  rw [bufWrite_ne, bufWrite_ne]
  · refine fun heq => ?_
    have heq2 : (i + 1) * pcols + (j + 1) = row * pcols + 0 :=
      heq.trans (Nat.add_zero _).symm
    have h2 := (row_col_eq (by omega : j + 1 < pcols) (by omega : 0 < pcols) heq2).2
    omega
  · refine fun heq => ?_
    have heq2 : (i + 1) * pcols + (j + 1) = row * pcols + (pcols - 1) :=
      heq.trans (Nat.add_sub_assoc hp1 _)
    have h2 := (row_col_eq (by omega : j + 1 < pcols)
      (by omega : pcols - 1 < pcols) heq2).2
    omega

/-- C7: the blur scorer's horizontal crop retains a window of width
`cols - REMOVE_SIDE_COLUMNS` that starts at column `C/2` for Straight,
`C` for Left and `0` for Right (`C = REMOVE_SIDE_COLUMNS = 56`): interior
entry `(i+1, j+1)` of the padded buffer holds source pixel
`(i, j + start)`. -/
theorem pad_image_retained_window (image : ℕ → ℤ) (rows cols : ℕ)
    (dir : FaceDirection) (i j : ℕ) (hi : i < rows)
    (hj : j < cols - REMOVE_SIDE_COLUMNS) :
    (pad_image_for_direction image rows cols dir).1
        ((i + 1) * (cols + 2 - REMOVE_SIDE_COLUMNS) + (j + 1)) =
      image (i * cols + (j + claimed_start_col dir)) := by
  have h56 : 56 ≤ cols := by
    simp only [REMOVE_SIDE_COLUMNS] at hj
    omega
  simp only [REMOVE_SIDE_COLUMNS] at hj ⊢
  simp only [pad_image_for_direction, REMOVE_SIDE_COLUMNS]
  rw [pad_pass3_keeps _ _ _ i j (by omega)]
  rw [pad_pass2_keeps _ _ _ _ i j hi (by omega) (by omega)]
  rw [pad_pass1_value image rows cols _ _ _ (by omega) i j hi (by omega)]
  cases dir <;> simp [claimed_start_col, REMOVE_SIDE_COLUMNS]

/-- C7 witness: a 1x57 identity-valued buffer cropped for Straight keeps
source column 28 at interior position (1, 1) of the padded buffer. -/
theorem pad_image_retained_window_witness :
    (0 : ℕ) < 1 ∧ (0 : ℕ) < 57 - REMOVE_SIDE_COLUMNS ∧
    (pad_image_for_direction (fun n => (n : ℤ)) 1 57 FaceDirection.Straight).1
        ((0 + 1) * (57 + 2 - REMOVE_SIDE_COLUMNS) + (0 + 1)) =
      (fun n => (n : ℤ)) (0 * 57 + (0 + claimed_start_col FaceDirection.Straight)) :=
  ⟨by decide, by decide,
    pad_image_retained_window (fun n => (n : ℤ)) 1 57 FaceDirection.Straight 0 0
      (by decide) (by decide)⟩
